import Mathlib

/-!
Verification development for the AI-assistant backend.

The Python sources are shallowly embedded:
- `action_executor.py` : every `ActionExecutor` method becomes a total Lean
  function over an explicit environment outcome (`Outcome` / `RunOutcome`);
  a Python `try`/`except` body is modelled by the `exc` constructor carrying
  `str(e)` of the raised exception.
- `enhanced_ai_handler.py` : the model is an oracle (the analysis reply text
  and a `gen : String → String` map from prompts to replies); JSON values are
  the `Json` inductive, `json.loads` is the fuel-based parser `jsonLoads`,
  and both regular expressions used by the handler are modelled directly.
- `user_memory.py` : memory state is a record plus an explicit disk cell.

Machine-facing side effects (files written, processes spawned, model calls)
are recorded as an `Event` trace so that "which actions were invoked" is a
provable statement.
-/

/-! ## Generic string / character helpers (Python semantics) -/

/-- Python word character for `\w` (ASCII approximation: letters, digits, underscore). -/
def wordChar (c : Char) : Bool := c.isAlphanum || c = '_'

/-- Python whitespace for `str.strip()` (ASCII part). -/
def pyWs (c : Char) : Bool :=
  c = ' ' || c = '\t' || c = '\n' || c = '\r' || c = '\x0b' || c = '\x0c'

/-- Models `str.strip()` on a character list. -/
def stripChars (l : List Char) : List Char :=
  ((l.dropWhile pyWs).reverse.dropWhile pyWs).reverse

/-- Models `str.strip()` on a string. -/
def pyStrip (s : String) : String := String.mk (stripChars s.data)

/-- Models `str.lower()` (ASCII approximation). -/
def pyLower (s : String) : String := String.mk (s.data.map Char.toLower)

/-- Models `str.capitalize()`: first character upper-cased, the rest lower-cased. -/
def pyCapitalize (s : String) : String :=
  match s.data with
  | [] => ""
  | c :: rest => String.mk (c.toUpper :: rest.map Char.toLower)

/-- Python substring test `pat in l` on character lists. -/
def isSubList (pat : List Char) : List Char → Bool
  | [] => pat.isEmpty
  | c :: tl => pat.isPrefixOf (c :: tl) || isSubList pat tl

/-- Python substring test `pat in s` on strings. -/
def strContains (s pat : String) : Bool := isSubList pat.data s.data

/-- Python slice `l[-n:]`: the at most `n` last elements. -/
def lastN (n : Nat) (l : List α) : List α := l.drop (l.length - n)

/-- The backtick character (Markdown code-fence delimiter). -/
def btick : Char := Char.ofNat 96

/-! ## JSON values (the shape `json.loads` produces)

Numbers keep their source lexeme: no claim inspects numeric values, and this
avoids committing to a floating-point semantics. -/

inductive Json where
  | null
  | bool (b : Bool)
  | num (raw : String)
  | str (s : String)
  | arr (items : List Json)
  | obj (fields : List (String × Json))

/-- Lookup in a Python dict built by inserting the fields in order:
a later duplicate key overwrites an earlier one. -/
def lookupField : List (String × Json) → String → Option Json
  | [], _ => none
  | (k, v) :: rest, key =>
    match lookupField rest key with
    | some v' => some v'
    | none => if k = key then some v else none

/-- Models `d.get(key, default)` on a dict's field list. -/
def oget (fields : List (String × Json)) (key : String) (dflt : Json) : Json :=
  (lookupField fields key).getD dflt

/-- Python truthiness of a JSON value.  Numeric zero is recognised on the
common lexeme forms (claims never branch on numeric parameters). -/
def Json.truthy : Json → Bool
  | .null => false
  | .bool b => b
  | .num raw => !(raw = "0" || raw = "-0" || raw = "0.0" || raw = "-0.0")
  | .str s => !(s = "")
  | .arr items => !items.isEmpty
  | .obj fields => !fields.isEmpty

mutual
/-- Python `repr()` of a JSON-shaped value (best effort; containers are only
ever rendered here when interpolated into a prompt, which no claim inspects). -/
def pyRepr : Json → String
  | .null => "None"
  | .bool true => "True"
  | .bool false => "False"
  | .num r => r
  | .str s => "\x27" ++ s ++ "\x27"
  | .arr xs => "[" ++ ", ".intercalate (pyReprList xs) ++ "]"
  | .obj fs => "\x7b" ++ ", ".intercalate (pyReprFields fs) ++ "\x7d"

def pyReprList : List Json → List String
  | [] => []
  | x :: xs => pyRepr x :: pyReprList xs

def pyReprFields : List (String × Json) → List String
  | [] => []
  | (k, v) :: fs => ("\x27" ++ k ++ "\x27: " ++ pyRepr v) :: pyReprFields fs
end

/-- Python `str()` of a JSON-shaped value (as used by f-string interpolation). -/
def pyStr : Json → String
  | .str s => s
  | j => pyRepr j

/-! ## ActionResult (the result dicts of `action_executor.py`)

The Python methods return dicts with a varying key set; absent keys are
`none`. -/

structure ActionResult where
  success : Bool
  message : String
  output : Option String := none
  exit_code : Option Int := none
  filepath : Option String := none
  files : Option (List String) := none
  content : Option String := none
  url : Option String := none
  note : Option String := none
  video_title : Option String := none
  workspace : Option String := none
deriving DecidableEq

/-! ## Environment outcomes

A method body's interaction with the operating system either completes
normally (`ok`, with whatever data it produced) or raises an exception whose
`str(e)` is `msg`.  `subprocess.run` with a timeout additionally has the
`timedOut` outcome, which in Python is the `TimeoutExpired` exception. -/

inductive Outcome (α : Type) where
  | ok (val : α)
  | exc (msg : String)

inductive RunOutcome where
  | completed (returncode : Int) (stdout stderr : String)
  | timedOut
  | raised (msg : String)

/-- Models `os.path.join` (separator fixed; no claim depends on the separator). -/
def joinPath (a b : String) : String := a ++ "/" ++ b

/-- Models `str(subprocess.TimeoutExpired(cmd, timeout))` for a shell command string. -/
def timeoutExpiredStr (cmd : String) (secs : Nat) : String :=
  "Command \x27" ++ cmd ++ "\x27 timed out after " ++ toString secs ++ " seconds"

/-- Models `%XX` percent-encoding byte, upper-case hex. -/
def pctByte (n : Nat) : String :=
  let hexDigit := fun (k : Nat) =>
    if k < 10 then Char.ofNat (48 + k) else Char.ofNat (55 + k)
  String.mk ['%', hexDigit (n / 16 % 16), hexDigit (n % 16)]

/-- UTF-8 bytes of a character. -/
def utf8Bytes (c : Char) : List Nat :=
  let n := c.toNat
  if n < 0x80 then [n]
  else if n < 0x800 then [0xC0 + n / 64, 0x80 + n % 64]
  else if n < 0x10000 then [0xE0 + n / 4096, 0x80 + n / 64 % 64, 0x80 + n % 64]
  else [0xF0 + n / 262144, 0x80 + n / 4096 % 64, 0x80 + n / 64 % 64, 0x80 + n % 64]

/-- Models `urllib.parse.quote` with the default `safe="/"`. -/
def pyQuote (s : String) : String :=
  String.join (s.data.map fun c =>
    if c.isAlphanum || c = '_' || c = '.' || c = '-' || c = '~' || c = '/' then
      String.mk [c]
    else
      String.join ((utf8Bytes c).map pctByte))

/-! ## `action_executor.py`: the Action Registry -/

namespace ActionExecutor

/-- Models `create_file` (action_executor.py:17-32). -/
def create_file (ws filename content : String) (oc : Outcome Unit) : ActionResult :=
  match oc with
  | .ok _ =>
    { success := true
      message := "✅ File created: " ++ joinPath ws filename
      filepath := some (joinPath ws filename) }
  | .exc e =>
    { success := false, message := "❌ Error creating file: " ++ e }

/-- Models `open_idle` (action_executor.py:34-67).  An empty filename string is
falsy in Python, hence takes the no-file branch. -/
def open_idle (ws : String) (filename : Option String) (oc : Outcome Unit) : ActionResult :=
  match oc with
  | .exc e =>
    { success := false
      message := "❌ Error opening IDLE: " ++ e ++ ". Try: VS Code or Notepad instead" }
  | .ok _ =>
    match filename with
    | some fn =>
      if fn = "" then { success := true, message := "✅ IDLE opened" }
      else
        { success := true
          message := "✅ IDLE opened with " ++ fn
          filepath := some (joinPath ws fn) }
    | none => { success := true, message := "✅ IDLE opened" }

/-- Models `open_notepad` (action_executor.py:69-89). -/
def open_notepad (filename : Option String) (oc : Outcome Unit) : ActionResult :=
  match oc with
  | .exc e => { success := false, message := "❌ Error opening Notepad: " ++ e }
  | .ok _ =>
    match filename with
    | some fn =>
      if fn = "" then { success := true, message := "✅ Notepad opened" }
      else { success := true, message := "✅ Notepad opened with " ++ fn }
    | none => { success := true, message := "✅ Notepad opened" }

/-- Models `open_vscode` (action_executor.py:91-116). -/
def open_vscode (ws : String) (filename : Option String) (oc : Outcome Unit) : ActionResult :=
  match oc with
  | .exc e =>
    { success := false
      message := "❌ Error opening VS Code: " ++ e ++ ". Make sure VS Code is installed." }
  | .ok _ =>
    match filename with
    | some fn =>
      if fn = "" then
        { success := true, message := "✅ VS Code opened workspace: " ++ ws }
      else
        { success := true
          message := "✅ VS Code opened with " ++ fn
          filepath := some (joinPath ws fn) }
    | none => { success := true, message := "✅ VS Code opened workspace: " ++ ws }

/-- Models `run_python_code` (action_executor.py:118-151): write the temp file, run
it with a 10 second timeout; `TimeoutExpired` has a dedicated branch. -/
def run_python_code (code : String) (write : Outcome Unit) (run : RunOutcome) : ActionResult :=
  match write with
  | .exc e => { success := false, message := "❌ Error executing code: " ++ e }
  | .ok _ =>
    match run with
    | .completed rc out err =>
      { success := rc == 0
        message :=
          if rc == 0 then "✅ Code executed successfully" else "⚠️ Code executed with errors"
        output := some (if out = "" then err else out)
        exit_code := some rc }
    | .timedOut => { success := false, message := "❌ Code execution timed out (10s limit)" }
    | .raised e => { success := false, message := "❌ Error executing code: " ++ e }

/-- Models `execute_command` (action_executor.py:153-176): run with a 30 second
timeout; there is no dedicated `TimeoutExpired` branch, so a timeout is the
`TimeoutExpired` exception caught by the generic handler, whose message embeds
`str(e)`. -/
def execute_command (command : String) (run : RunOutcome) : ActionResult :=
  match run with
  | .completed rc out err =>
    { success := rc == 0
      message := "✅ Command executed"
      output := some (if out = "" then err else out)
      exit_code := some rc }
  | .timedOut =>
    { success := false
      message := "❌ Error executing command: " ++ timeoutExpiredStr command 30 }
  | .raised e =>
    { success := false, message := "❌ Error executing command: " ++ e }

/-- Models `list_files` (action_executor.py:178-192). -/
def list_files (ws : String) (oc : Outcome (List String)) : ActionResult :=
  match oc with
  | .ok fs =>
    { success := true
      message := "✅ Found " ++ toString fs.length ++ " files"
      files := some fs
      workspace := some ws }
  | .exc e => { success := false, message := "❌ Error listing files: " ++ e }

/-- Models `read_file` (action_executor.py:194-209). -/
def read_file (filename : String) (oc : Outcome String) : ActionResult :=
  match oc with
  | .ok c =>
    { success := true, message := "✅ File read: " ++ filename, content := some c }
  | .exc e => { success := false, message := "❌ Error reading file: " ++ e }

/-- Models `open_browser` (action_executor.py:212-225). -/
def open_browser (url : String) (oc : Outcome Unit) : ActionResult :=
  match oc with
  | .ok _ => { success := true, message := "✅ Browser opened: " ++ url }
  | .exc e => { success := false, message := "❌ Error opening browser: " ++ e }

/-- Environment for `open_youtube`: either the `BrowserAutomation` import
failed and the plain `webbrowser` fallback runs, or the automation object is
used and its `play_youtube_video` either returns a result dict or raises. -/
inductive YoutubeEnv where
  | fallback (oc : Outcome Unit)
  | automation (res : Outcome ActionResult)

/-- Models `open_youtube` (action_executor.py:227-260). -/
def open_youtube (query : String) (env : YoutubeEnv) : ActionResult :=
  match env with
  | .automation (.ok r) => r
  | .automation (.exc e) =>
    { success := false, message := "❌ Error opening YouTube: " ++ e }
  | .fallback (.ok _) =>
    { success := true
      message := "✅ YouTube opened with search: " ++ query
      url := some ("https://www.youtube.com/results?search_query=" ++ pyQuote query)
      note := some "⚠️ For auto-play, install: pip install -r browser_requirements.txt" }
  | .fallback (.exc e) =>
    { success := false, message := "❌ Error opening YouTube: " ++ e }

/-- Models `google_search` (action_executor.py:262-281). -/
def google_search (query : String) (oc : Outcome Unit) : ActionResult :=
  match oc with
  | .ok _ =>
    { success := true
      message := "✅ Google search opened: " ++ query
      url := some ("https://www.google.com/search?q=" ++ pyQuote query) }
  | .exc e => { success := false, message := "❌ Error opening Google: " ++ e }

/-- The fixed application-command table of `open_application`. -/
def appCommands : List (String × String) :=
  [("notepad", "notepad"), ("calculator", "calc"), ("paint", "mspaint"),
   ("cmd", "cmd"), ("powershell", "powershell"), ("explorer", "explorer"),
   ("chrome", "chrome"), ("edge", "msedge"), ("firefox", "firefox")]

/-- Models `open_application` (action_executor.py:283-310). -/
def open_application (app_name : String) (oc : Outcome Unit) : ActionResult :=
  let _command := ((appCommands.lookup (pyLower app_name)).getD app_name)
  match oc with
  | .ok _ => { success := true, message := "✅ " ++ app_name ++ " opened" }
  | .exc e =>
    { success := false, message := "❌ Error opening " ++ app_name ++ ": " ++ e }

/-- Models `delete_file` (action_executor.py:312-325). -/
def delete_file (filename : String) (oc : Outcome Unit) : ActionResult :=
  match oc with
  | .ok _ => { success := true, message := "✅ File deleted: " ++ filename }
  | .exc e => { success := false, message := "❌ Error deleting file: " ++ e }

end ActionExecutor

/-! ## The registry as one catalog (for the exception-safety claim) -/

/-- One call to a registry operation, bundling its arguments and the
environment outcome it ran against. -/
inductive RegistryCall where
  | create_file (filename content : String) (oc : Outcome Unit)
  | open_idle (filename : Option String) (oc : Outcome Unit)
  | open_notepad (filename : Option String) (oc : Outcome Unit)
  | open_vscode (filename : Option String) (oc : Outcome Unit)
  | run_python_code (code : String) (write : Outcome Unit) (run : RunOutcome)
  | execute_command (command : String) (run : RunOutcome)
  | list_files (oc : Outcome (List String))
  | read_file (filename : String) (oc : Outcome String)
  | open_browser (url : String) (oc : Outcome Unit)
  | open_youtube (query : String) (env : ActionExecutor.YoutubeEnv)
  | google_search (query : String) (oc : Outcome Unit)
  | open_application (app : String) (oc : Outcome Unit)
  | delete_file (filename : String) (oc : Outcome Unit)

/-- Dispatch a registry call to the method embeddings above.  This is a total
function: no call outcome escapes as an exception. -/
def runRegistry (ws : String) : RegistryCall → ActionResult
  | .create_file fn c oc => ActionExecutor.create_file ws fn c oc
  | .open_idle fn oc => ActionExecutor.open_idle ws fn oc
  | .open_notepad fn oc => ActionExecutor.open_notepad fn oc
  | .open_vscode fn oc => ActionExecutor.open_vscode ws fn oc
  | .run_python_code code w r => ActionExecutor.run_python_code code w r
  | .execute_command c r => ActionExecutor.execute_command c r
  | .list_files oc => ActionExecutor.list_files ws oc
  | .read_file fn oc => ActionExecutor.read_file fn oc
  | .open_browser u oc => ActionExecutor.open_browser u oc
  | .open_youtube q env => ActionExecutor.open_youtube q env
  | .google_search q oc => ActionExecutor.google_search q oc
  | .open_application a oc => ActionExecutor.open_application a oc
  | .delete_file fn oc => ActionExecutor.delete_file fn oc

/-- Did the environment raise an exception during this call (a `TimeoutExpired`
from a timed-out subprocess counts: it is an exception in Python)? -/
def callRaised : RegistryCall → Bool
  | .create_file _ _ (.exc _) => true
  | .open_idle _ (.exc _) => true
  | .open_notepad _ (.exc _) => true
  | .open_vscode _ (.exc _) => true
  | .run_python_code _ (.exc _) _ => true
  | .run_python_code _ (.ok _) (.raised _) => true
  | .run_python_code _ (.ok _) .timedOut => true
  | .execute_command _ (.raised _) => true
  | .execute_command _ .timedOut => true
  | .list_files (.exc _) => true
  | .read_file _ (.exc _) => true
  | .open_browser _ (.exc _) => true
  | .open_youtube _ (.automation (.exc _)) => true
  | .open_youtube _ (.fallback (.exc _)) => true
  | .google_search _ (.exc _) => true
  | .open_application _ (.exc _) => true
  | .delete_file _ (.exc _) => true
  | _ => false

/-! ## `json.loads` (fuel-based recursive-descent model of CPython's decoder)

Errors carry CPython's message text and character position; `formatJsonErr`
renders `str(JSONDecodeError)`.  The fuel passed by `jsonLoads` always
suffices (every loop iteration consumes input), and no theorem depends on
the fuel bound: the parser only appears either applied to concrete input or
inside hypotheses. -/

structure JErr where
  emsg : String
  pos : Nat

/-- JSON whitespace skipping (`_w` in CPython's decoder), tracking position. -/
def skipWs : List Char → Nat → List Char × Nat
  | [], p => ([], p)
  | c :: rest, p =>
    if c = ' ' || c = '\t' || c = '\n' || c = '\r' then skipWs rest (p + 1)
    else (c :: rest, p)

def hexVal (c : Char) : Option Nat :=
  if '0' ≤ c ∧ c ≤ '9' then some (c.toNat - 48)
  else if 'a' ≤ c ∧ c ≤ 'f' then some (c.toNat - 87)
  else if 'A' ≤ c ∧ c ≤ 'F' then some (c.toNat - 55)
  else none

/-- The backslash-escape table of `py_scanstring`. -/
def escChar (c : Char) : Option Char :=
  if c = Char.ofNat 34 then some (Char.ofNat 34)
  else if c = '\\' then some '\\'
  else if c = '/' then some '/'
  else if c = 'b' then some (Char.ofNat 8)
  else if c = 'f' then some (Char.ofNat 12)
  else if c = 'n' then some '\n'
  else if c = 'r' then some '\r'
  else if c = 't' then some '\t'
  else none

/-- Models `py_scanstring`, entered just after the opening quote.  `begin` is the
index of the opening quote, `p` the current index, `acc` the reversed chunk. -/
def parseJString (begin : Nat) : List Char → Nat → List Char →
    Except JErr (String × List Char × Nat)
  | [], _, _ => .error ⟨"Unterminated string starting at", begin⟩
  | c :: rest, p, acc =>
    if c = Char.ofNat 34 then .ok (String.mk acc.reverse, rest, p + 1)
    else if c = '\\' then
      match rest with
      | [] => .error ⟨"Unterminated string starting at", begin⟩
      | e :: rest2 =>
        if e = 'u' then
          match rest2 with
          | h1 :: h2 :: h3 :: h4 :: rest3 =>
            match hexVal h1, hexVal h2, hexVal h3, hexVal h4 with
            | some a, some b, some c2, some d =>
              parseJString begin rest3 (p + 6)
                (Char.ofNat (4096 * a + 256 * b + 16 * c2 + d) :: acc)
            | _, _, _, _ => .error ⟨"Invalid \\uXXXX escape", p + 1⟩
          | _ => .error ⟨"Invalid \\uXXXX escape", p + 1⟩
        else
          match escChar e with
          | some ch => parseJString begin rest2 (p + 2) (ch :: acc)
          | none => .error ⟨"Invalid \\escape", p⟩
    else if c.toNat < 0x20 then .error ⟨"Invalid control character at", p⟩
    else parseJString begin rest (p + 1) (c :: acc)

/-- The integer part of `NUMBER_RE`: `-?(0|[1-9][0-9]*)`, then optional
fraction `(\.[0-9]+)?` and exponent `([eE][-+]?[0-9]+)?`; returns the raw
lexeme. -/
def scanNumber (l : List Char) (p : Nat) : Option (String × List Char × Nat) :=
  let core : List Char → Option (List Char × List Char) := fun l0 =>
    match l0 with
    | [] => none
    | c :: rest =>
      if c = '0' then some ([c], rest)
      else if '1' ≤ c ∧ c ≤ '9' then
        some (c :: rest.takeWhile Char.isDigit, rest.dropWhile Char.isDigit)
      else none
  let withSign : Option (List Char × List Char) :=
    match l with
    | c :: rest =>
      if c = '-' then (core rest).map fun ir => (c :: ir.1, ir.2)
      else core l
    | [] => none
  match withSign with
  | none => none
  | some (intPart, r1) =>
    let (fracPart, r2) :=
      match r1 with
      | c :: rest =>
        if c = '.' ∧ (rest.takeWhile Char.isDigit) ≠ [] then
          (c :: rest.takeWhile Char.isDigit, rest.dropWhile Char.isDigit)
        else ([], r1)
      | [] => ([], r1)
    let (expPart, r3) :=
      match r2 with
      | c :: rest =>
        if c = 'e' ∨ c = 'E' then
          match rest with
          | s :: rest2 =>
            if s = '+' ∨ s = '-' then
              if (rest2.takeWhile Char.isDigit) ≠ [] then
                (c :: s :: rest2.takeWhile Char.isDigit, rest2.dropWhile Char.isDigit)
              else ([], r2)
            else if (rest.takeWhile Char.isDigit) ≠ [] then
              (c :: rest.takeWhile Char.isDigit, rest.dropWhile Char.isDigit)
            else ([], r2)
          | [] => ([], r2)
        else ([], r2)
      | [] => ([], r2)
    let raw := intPart ++ fracPart ++ expPart
    some (String.mk raw, r3, p + raw.length)

/-- Parser mode: one JSON value, an object just after its opening brace, the
object member loop (at a property-name quote), an array just after its
opening bracket, or the array element loop. -/
inductive PMode where
  | value
  | objStart
  | objLoop (acc : List (String × Json))
  | arrStart
  | arrLoop (acc : List Json)

/-- The recursive core of CPython's `scan_once`/`JSONObject`/`JSONArray`,
as one structurally fuel-recursive function so that concrete inputs reduce
definitionally. -/
def parseJ : Nat → PMode → List Char → Nat → Except JErr (Json × List Char × Nat)
  | 0, _, _, p => .error ⟨"Expecting value", p⟩
  | fuel + 1, mode, l, p =>
    match mode with
    | .value =>
      match l with
      | [] => .error ⟨"Expecting value", p⟩
      | c :: rest =>
        if c = Char.ofNat 34 then
          match parseJString p rest (p + 1) [] with
          | .ok (s, r2, p2) => .ok (.str s, r2, p2)
          | .error e => .error e
        else if c = '\x7b' then parseJ fuel .objStart rest (p + 1)
        else if c = '[' then parseJ fuel .arrStart rest (p + 1)
        else if l.take 4 = "null".data then .ok (.null, l.drop 4, p + 4)
        else if l.take 4 = "true".data then .ok (.bool true, l.drop 4, p + 4)
        else if l.take 5 = "false".data then .ok (.bool false, l.drop 5, p + 5)
        else
          match scanNumber l p with
          | some (raw, r2, p2) => .ok (.num raw, r2, p2)
          | none =>
            if l.take 3 = "NaN".data then .ok (.num "NaN", l.drop 3, p + 3)
            else if l.take 8 = "Infinity".data then .ok (.num "Infinity", l.drop 8, p + 8)
            else if l.take 9 = "-Infinity".data then .ok (.num "-Infinity", l.drop 9, p + 9)
            else .error ⟨"Expecting value", p⟩
    | .objStart =>
      let lp := skipWs l p
      match lp.1 with
      | c :: rest =>
        if c = '\x7d' then .ok (.obj [], rest, lp.2 + 1)
        else parseJ fuel (.objLoop []) lp.1 lp.2
      | [] => .error ⟨"Expecting property name enclosed in double quotes", lp.2⟩
    | .objLoop acc =>
      match l with
      | q :: rest =>
        if q = Char.ofNat 34 then
          match parseJString p rest (p + 1) [] with
          | .error e => .error e
          | .ok (key, l2, p2) =>
            let lp3 := skipWs l2 p2
            match lp3.1 with
            | ':' :: l4 =>
              let lp5 := skipWs l4 (lp3.2 + 1)
              match parseJ fuel .value lp5.1 lp5.2 with
              | .error e => .error e
              | .ok (v, l6, p6) =>
                let lp7 := skipWs l6 p6
                match lp7.1 with
                | '\x7d' :: l8 => .ok (.obj (acc ++ [(key, v)]), l8, lp7.2 + 1)
                | ',' :: l8 =>
                  let lp9 := skipWs l8 (lp7.2 + 1)
                  parseJ fuel (.objLoop (acc ++ [(key, v)])) lp9.1 lp9.2
                | _ => .error ⟨"Expecting \x27,\x27 delimiter", lp7.2⟩
            | _ => .error ⟨"Expecting \x27:\x27 delimiter", lp3.2⟩
        else .error ⟨"Expecting property name enclosed in double quotes", p⟩
      | [] => .error ⟨"Expecting property name enclosed in double quotes", p⟩
    | .arrStart =>
      let lp := skipWs l p
      match lp.1 with
      | ']' :: rest => .ok (.arr [], rest, lp.2 + 1)
      | _ => parseJ fuel (.arrLoop []) lp.1 lp.2
    | .arrLoop acc =>
      match parseJ fuel .value l p with
      | .error e => .error e
      | .ok (v, l2, p2) =>
        let lp3 := skipWs l2 p2
        match lp3.1 with
        | ']' :: l4 => .ok (.arr (acc ++ [v]), l4, lp3.2 + 1)
        | ',' :: l4 =>
          let lp5 := skipWs l4 (lp3.2 + 1)
          parseJ fuel (.arrLoop (acc ++ [v])) lp5.1 lp5.2
        | _ => .error ⟨"Expecting \x27,\x27 delimiter", lp3.2⟩

/-- Models `scan_once`: parse one JSON value starting at `l` (position `p`). -/
def parseValue (fuel : Nat) (l : List Char) (p : Nat) :
    Except JErr (Json × List Char × Nat) :=
  parseJ fuel .value l p

/-- Models `lineno`/`colno` of `JSONDecodeError`. -/
def jsonLinecol (doc : List Char) (pos : Nat) : Nat × Nat :=
  let before := doc.take pos
  let line := (before.filter (fun c => c = '\n')).length + 1
  let col :=
    match before.reverse.findIdx? (fun c => c = '\n') with
    | some k => k + 1
    | none => pos + 1
  (line, col)

/-- Models `str(JSONDecodeError)`. -/
def formatJsonErr (doc : List Char) (e : JErr) : String :=
  let lc := jsonLinecol doc e.pos
  e.emsg ++ ": line " ++ toString lc.1 ++ " column " ++ toString lc.2 ++
    " (char " ++ toString e.pos ++ ")"

/-- Models `json.loads`: skip leading whitespace, parse one value, reject trailing
data; on failure the result is `str` of the raised `JSONDecodeError`. -/
def jsonLoads (s : String) : Except String Json :=
  let doc := s.data
  let lp1 := skipWs doc 0
  match parseValue (doc.length * 4 + 16) lp1.1 lp1.2 with
  | .error e => .error (formatJsonErr doc e)
  | .ok (v, l2, p2) =>
    let lp3 := skipWs l2 p2
    match lp3.1 with
    | [] => .ok v
    | _ => .error (formatJsonErr doc ⟨"Extra data", lp3.2⟩)

/-! ## The two regular expressions of `enhanced_ai_handler.py` -/

/-- Keep a character list up to and including its last closing brace. -/
def upToLastRBrace (l : List Char) : List Char :=
  (l.reverse.dropWhile (fun c => c ≠ '\x7d')).reverse

/-- Models `re.search` of the DOTALL pattern "opening brace, greedy any, closing
brace" (enhanced_ai_handler.py:95) and `.group()` of the match: the substring
from the first opening brace that has a later closing brace, through the last
closing brace of the text; `none` when the pattern does not match. -/
def extractJsonSub (s : String) : Option String :=
  match s.data.dropWhile (fun c => c ≠ '\x7b') with
  | [] => none
  | c :: tail =>
    if tail.contains '\x7d' then some (String.mk (c :: upToLastRBrace tail))
    else none

/-- The lazy body of a fenced block: the characters before the first
three-backtick fence, and the remainder after that fence. -/
def takeUntilFence : List Char → Option (List Char × List Char)
  | [] => none
  | c :: rest =>
    if c = btick ∧ rest.take 2 = [btick, btick] then some ([], rest.drop 2)
    else (takeUntilFence rest).map fun br => (c :: br.1, br.2)

/-- Models `re.findall` of the DOTALL fenced-code-block pattern
(enhanced_ai_handler.py:217): triple backtick, an optional word-character
language group, a newline, a lazy body group, a closing triple backtick.
Returns the raw group pairs in scan order, resuming after each match and
advancing one character past a failed partial match.  The fuel passed by
`extract_code_blocks` always suffices. -/
def findallFenced : Nat → List Char → List (String × String)
  | 0, _ => []
  | _ + 1, [] => []
  | fuel + 1, c :: rest =>
    if c = btick ∧ rest.take 2 = [btick, btick] then
      match (rest.drop 2).dropWhile wordChar with
      | nl :: body0 =>
        if nl = '\n' then
          match takeUntilFence body0 with
          | some ba =>
            (String.mk ((rest.drop 2).takeWhile wordChar), String.mk ba.1) ::
              findallFenced fuel ba.2
          | none => findallFenced fuel rest
        else findallFenced fuel rest
      | [] => findallFenced fuel rest
    else findallFenced fuel rest

structure CodeBlock where
  language : String
  code : String
deriving DecidableEq

/-- Models `_extract_code_blocks` (enhanced_ai_handler.py:215-229): an absent
language group renders as the empty string in `findall` and becomes "text";
the body is stripped. -/
def extract_code_blocks (text : String) : List CodeBlock :=
  (findallFenced (text.data.length + 1) text.data).map fun lc =>
    { language := if lc.1 = "" then "text" else lc.1
      code := pyStrip lc.2 }

/-! ## `enhanced_ai_handler.py`: Intent Planner and Plan Executor

`process_command` is modelled against a model oracle: the analysis reply is a
plain string input, and `gen` maps a content-generation prompt to the model's
reply.  The registry is an oracle `env : Invocation → ActionResult` (its
concrete behaviour is the `ActionExecutor` section above; the executor loop
only appends whatever result the called method returned).  Everything the loop
does to the outside world is recorded as the `Event` trace; an uncaught Python
exception inside the `try` block is an `Except.error` carrying `str(e)`,
which `process_command` routes to the generic error response. -/

/-- One call into the Action Registry made by the executor loop, with the
JSON parameter values passed (enhanced_ai_handler.py:107-168). -/
inductive Invocation where
  | create_file (filename content : Json)
  | open_idle (filename : Json)
  | open_vscode (filename : Json)
  | run_python_code (code : Json)
  | execute_command (command : Json)
  | open_youtube (search_query : Json)
  | open_browser (url : Json)
  | google_search (query : Json)
  | open_application (app_name : Json)

/-- Externally visible act of the executor loop: a content-generation model
call, or a registry invocation. -/
inductive Event where
  | genCall (prompt : String)
  | invoke (call : Invocation)

/-- The secondary content-generation prompt (enhanced_ai_handler.py:115). -/
def codePrompt (intent : String) : String :=
  "Write clean, well-commented Python code for: " ++ intent

/-- Models `str(e)` stand-in for attribute errors on non-dict values; no claim
depends on its exact text. -/
def attributeErrGet : String := "AttributeError: object has no attribute \x27get\x27"

/-- The tags for which the executor loop has an `elif` branch that reads
`params` (enhanced_ai_handler.py:112-168). -/
def dispatchedTags : List String :=
  ["create_file", "open_idle", "open_vscode", "run_code", "execute_command",
   "open_youtube", "open_browser", "google_search", "open_application"]

/-- One iteration of the action loop (enhanced_ai_handler.py:108-168): the
events it performs, or the exception it raises.  Unrecognised tags fall off
the `elif` chain and produce nothing; `params` is only read (and can only
raise on a non-dict value) inside a dispatched branch. -/
def runStep (plan : Json) (gen : String → String) (step : Json) : Except String (List Event) :=
  match step with
  | .obj sf =>
    match oget sf "type" .null with
    | .str t =>
      match oget sf "params" (.obj []) with
      | .obj pf =>
        if t = "create_file" then
          if (oget pf "content" .null).truthy then
            .ok [.invoke (.create_file (oget pf "filename" (.str "script.py"))
                (oget pf "content" (.str "")))]
          else
            match plan with
            | .obj plf =>
              match lookupField plf "intent" with
              | some intent =>
                let prompt := codePrompt (pyStr intent)
                let content :=
                  match extract_code_blocks (gen prompt) with
                  | b :: _ => b.code
                  | [] => gen prompt
                .ok [.genCall prompt,
                  .invoke (.create_file (oget pf "filename" (.str "script.py")) (.str content))]
              | none => .error "KeyError: \x27intent\x27"
            | _ => .error "TypeError: string indices must be integers"
        else if t = "open_idle" then
          .ok [.invoke (.open_idle (oget pf "filename" .null))]
        else if t = "open_vscode" then
          .ok [.invoke (.open_vscode (oget pf "filename" .null))]
        else if t = "run_code" then
          .ok [.invoke (.run_python_code (oget pf "code" (.str "")))]
        else if t = "execute_command" then
          .ok [.invoke (.execute_command (oget pf "command" (.str "")))]
        else if t = "open_youtube" then
          .ok [.invoke (.open_youtube (oget pf "search_query" (.str "")))]
        else if t = "open_browser" then
          .ok [.invoke (.open_browser (oget pf "url" (.str "")))]
        else if t = "google_search" then
          .ok [.invoke (.google_search (oget pf "query" (.str "")))]
        else if t = "open_application" then
          .ok [.invoke (.open_application (oget pf "app_name" (.str "")))]
        else .ok []
      | _ =>
        if dispatchedTags.contains t then .error attributeErrGet else .ok []
    | _ => .ok []
  | _ => .error attributeErrGet

/-- The whole action loop: concatenated events of each step, stopping at the
first step that raises (earlier steps' effects remain performed). -/
def runSteps (plan : Json) (gen : String → String) : List Json → List Event × Option String
  | [] => ([], none)
  | s :: rest =>
    match runStep plan gen s with
    | .error e => ([], some e)
    | .ok evs =>
      let re := runSteps plan gen rest
      (evs ++ re.1, re.2)

/-- Models `plan.get("actions", [])` followed by Python `for` iteration: a list
iterates its items, a string its characters, a dict its keys; other values
raise `TypeError`. -/
def planSteps (plan : Json) : Except String (List Json) :=
  match plan with
  | .obj pf =>
    match oget pf "actions" (.arr []) with
    | .arr steps => .ok steps
    | .str s => .ok (s.data.map fun c => Json.str (String.mk [c]))
    | .obj f => .ok (f.map fun kv => Json.str kv.1)
    | _ => .error "TypeError: object is not iterable"
  | _ => .error attributeErrGet

/-- The registry invocations among a trace (the loop appends exactly one
result per invocation, right after making it). -/
def executorCalls (evs : List Event) : List Invocation :=
  evs.filterMap fun e =>
    match e with
    | .invoke c => some c
    | .genCall _ => none

/-- One appended line of the aggregate response
(enhanced_ai_handler.py:176-179); an empty captured output is falsy and adds
no line. -/
def resultLine (r : ActionResult) : String :=
  "\n" ++ r.message ++
    (match r.output with
     | some o => if o = "" then "" else "\nOutput: " ++ o
     | none => "")

/-- Aggregation (enhanced_ai_handler.py:171-179): the plan's response text,
then one line per action result when any action ran.  Appending to a non-str
response value raises. -/
def buildResponse (respJ : Json) (results : List ActionResult) : Except String Json :=
  match results with
  | [] => .ok respJ
  | _ =>
    match respJ with
    | .str r =>
      .ok (.str (r ++ "\n\n**Actions Performed:**\n" ++ String.join (results.map resultLine)))
    | _ => .error "TypeError: can only concatenate str"

/-- JSON extraction and fallback (enhanced_ai_handler.py:94-104): brace-match
a substring and `json.loads` it, else the fixed single-step `just_respond`
plan carrying the raw reply. -/
def fallbackPlan (analysisText : String) : Json :=
  .obj [("intent", .str "respond"),
        ("actions", .arr [.obj [("type", .str "just_respond")]]),
        ("response", .str analysisText)]

def buildPlan (analysisText : String) : Except String Json :=
  match extractJsonSub analysisText with
  | some sub => jsonLoads sub
  | none => .ok (fallbackPlan analysisText)

/-- The fixed unconfigured-credential response (enhanced_ai_handler.py:33-39). -/
def notConfiguredMsg : String :=
  "⚠️ AI not configured. Please add your GEMINI_API_KEY to the .env file."

/-- The quota-guidance response (enhanced_ai_handler.py:198-206). -/
def quotaMsg : String :=
  "⚠️ **API Quota Limit Reached!**\n\nPlease wait 30-60 minutes and try again.\nCheck usage: https://aistudio.google.com/apikey"

/-- The `except` handler (enhanced_ai_handler.py:195-213): quota markers in
the error text give the quota message, anything else the generic error text. -/
def errorResponse (e : String) : Json :=
  if strContains e "429" || strContains (pyLower e) "quota" ||
      strContains e "RESOURCE_EXHAUSTED" then
    .str quotaMsg
  else .str ("❌ Error: " ++ e)

/-- The dict returned by `process_command`, extended with the event trace of
the command's execution (empty when the handler returned before running any
action). -/
structure PCOut where
  response : Json
  code : Option String
  language : Option String
  actions : List ActionResult
  events : List Event

def errOut (evs : List Event) (e : String) : PCOut :=
  { response := errorResponse e, code := none, language := none, actions := [], events := evs }

/-- Models `process_command` (enhanced_ai_handler.py:29-213).  The user-memory
interaction (context building and `extract_and_store_info`) cannot raise and
does not affect the returned dict; it is modelled in the `user_memory`
section below. -/
def process_command (configured : Bool) (analysisText : String)
    (gen : String → String) (env : Invocation → ActionResult) : PCOut :=
  if !configured then
    { response := .str notConfiguredMsg, code := none, language := none,
      actions := [], events := [] }
  else
    match buildPlan analysisText with
    | .error e => errOut [] e
    | .ok plan =>
      match planSteps plan with
      | .error e => errOut [] e
      | .ok steps =>
        match runSteps plan gen steps with
        | (evs, some e) => errOut evs e
        | (evs, none) =>
          let results := (executorCalls evs).map env
          match plan with
          | .obj pf =>
            match buildResponse (oget pf "response" (.str "Done!")) results with
            | .error e => errOut evs e
            | .ok resp =>
              let blocks := extract_code_blocks analysisText
              { response := resp
                code := blocks.head?.map CodeBlock.code
                language := blocks.head?.map CodeBlock.language
                actions := results
                events := evs }
          | _ => errOut evs attributeErrGet

/-! ## Specification-side readings for the executor claims -/

/-- The declared fixed tag set of the specification's ActionStep. -/
def declaredTags : List String :=
  ["create_file", "open_idle", "open_vscode", "run_code", "execute_command",
   "open_youtube", "open_browser", "google_search", "open_application",
   "list_files", "read_file", "delete_file", "just_respond"]

/-- Specification-side reading of a step: the single registry invocation the
step is expected to trigger, `none` when it triggers no registry call. -/
def stepInvocation (plan : Json) (gen : String → String) (step : Json) : Option Invocation :=
  match step with
  | .obj sf =>
    match oget sf "type" .null with
    | .str t =>
      match oget sf "params" (.obj []) with
      | .obj pf =>
        if t = "create_file" then
          if (oget pf "content" .null).truthy then
            some (.create_file (oget pf "filename" (.str "script.py"))
              (oget pf "content" (.str "")))
          else
            match plan with
            | .obj plf =>
              match lookupField plf "intent" with
              | some intent =>
                let prompt := codePrompt (pyStr intent)
                let content :=
                  match extract_code_blocks (gen prompt) with
                  | b :: _ => b.code
                  | [] => gen prompt
                some (.create_file (oget pf "filename" (.str "script.py")) (.str content))
              | none => none
            | _ => none
        else if t = "open_idle" then some (.open_idle (oget pf "filename" .null))
        else if t = "open_vscode" then some (.open_vscode (oget pf "filename" .null))
        else if t = "run_code" then some (.run_python_code (oget pf "code" (.str "")))
        else if t = "execute_command" then
          some (.execute_command (oget pf "command" (.str "")))
        else if t = "open_youtube" then
          some (.open_youtube (oget pf "search_query" (.str "")))
        else if t = "open_browser" then some (.open_browser (oget pf "url" (.str "")))
        else if t = "google_search" then some (.google_search (oget pf "query" (.str "")))
        else if t = "open_application" then
          some (.open_application (oget pf "app_name" (.str "")))
        else none
      | _ => none
    | _ => none
  | _ => none

/-- Well-formedness of one plan step for the executor claim: a dict whose
tag is a string from the declared set, with dict-shaped parameters. -/
def stepOK (step : Json) : Bool :=
  match step with
  | .obj sf =>
    (match oget sf "type" .null with
     | .str t => declaredTags.contains t
     | _ => false) &&
    (match oget sf "params" (.obj []) with
     | .obj _ => true
     | _ => false)
  | _ => false

/-- Well-formedness of a parsed plan for the executor claim: a dict carrying
an intent, a string (or absent) response, and a list of well-formed steps. -/
def planOK (plan : Json) : Bool :=
  match plan with
  | .obj pf =>
    (lookupField pf "intent").isSome &&
    (match oget pf "response" (.str "Done!") with
     | .str _ => true
     | _ => false) &&
    (match oget pf "actions" (.arr []) with
     | .arr steps => steps.all stepOK
     | _ => false)
  | _ => false

/-- Specification-side reading of the events one step performs: the
content-generation call (for a `create_file` step with falsy content) followed
by the registry invocation; nothing for steps that dispatch no action. -/
def stepEvents (plan : Json) (gen : String → String) (step : Json) : List Event :=
  match step with
  | .obj sf =>
    match oget sf "type" .null with
    | .str t =>
      match oget sf "params" (.obj []) with
      | .obj pf =>
        if t = "create_file" ∧ (oget pf "content" .null).truthy = false then
          match plan with
          | .obj plf =>
            match lookupField plf "intent" with
            | some intent =>
              .genCall (codePrompt (pyStr intent)) ::
                (stepInvocation plan gen step).toList.map .invoke
            | none => []
          | _ => []
        else (stepInvocation plan gen step).toList.map .invoke
      | _ => []
    | _ => []
  | _ => []

/-! ## `user_memory.py`: Profile Store

Memory is the fixed record shape `_create_default_memory` establishes; the
on-disk file is an explicit cell (`none` absent, `Except.error` unreadable or
corrupt, `Except.ok` a stored document).  A save-time I/O failure is logged
and ignored by the source, so `saveMem` with `ioOk = false` leaves the disk
unchanged.  Timestamps (`datetime.now().isoformat()`) are an input `now`. -/

structure MemFact where
  content : String
  timestamp : String
  context : String
deriving DecidableEq

structure Profile where
  name : Option String
  occupation : Option String
  interests : List String
  skills : List String
  preferences : List (String × String)
  location : Option String
deriving DecidableEq

structure Memory where
  profile : Profile
  facts : List MemFact
  preferences : List (String × String)
  history_summary : List String
  last_updated : Option String
deriving DecidableEq

/-- Models `_create_default_memory` (user_memory.py:27-42). -/
def defaultMemory : Memory :=
  { profile := { name := none, occupation := none, interests := [], skills := [],
                 preferences := [], location := none }
    facts := [], preferences := [], history_summary := [], last_updated := none }

structure MemState where
  mem : Memory
  disk : Option (Except Unit Memory)

/-- Models `_save_memory` (user_memory.py:44-51): rewrite the file wholesale; an
I/O failure is printed and swallowed. -/
def saveMem (ioOk : Bool) (s : MemState) : MemState :=
  if ioOk then { s with disk := some (.ok s.mem) } else s

/-- Models `_load_memory` (user_memory.py:17-25): absent or unreadable file degrades
to the default shape. -/
def load_memory : Option (Except Unit Memory) → Memory
  | some (.ok m) => m
  | some (.error _) => defaultMemory
  | none => defaultMemory

/-- Models `clear_memory` (user_memory.py:187-190). -/
def clear_memory (ioOk : Bool) (s : MemState) : MemState :=
  saveMem ioOk { s with mem := defaultMemory }

/-- Models `re.search` of a pattern `pre` ++ capture-group ++ rest: try each start
position left to right; at an occurrence of `pre`, run the capture on the
remainder, else advance one character. -/
def scanCap (pre : List Char) (cap : List Char → Option (List Char)) :
    List Char → Option (List Char)
  | [] => none
  | c :: rest =>
    if pre.isPrefixOf (c :: rest) then
      match cap ((c :: rest).drop pre.length) with
      | some w => some w
      | none => scanCap pre cap rest
    else scanCap pre cap rest

/-- Capture `(\w+)` followed by the literal `post`: the maximal word run
(backtracking a greedy `\w+` before a non-word literal never helps). -/
def wordCap (post : List Char) (l : List Char) : Option (List Char) :=
  let w := l.takeWhile wordChar
  if !w.isEmpty && post.isPrefixOf (l.dropWhile wordChar) then some w else none

/-- Does `(?:\.|$)` succeed here (`$` without MULTILINE: end of string or
just before a final trailing newline)? -/
def dotOrEnd : List Char → Bool
  | [] => true
  | '.' :: _ => true
  | ['\n'] => true
  | _ => false

/-- Lazy `(.+?)` (no DOTALL: `.` excludes newline) followed by `(?:\.|$)`:
the shortest non-empty capture from this position. -/
def lazyDotCapAux : List Char → List Char → Option (List Char)
  | acc, rem =>
    if dotOrEnd rem then some acc.reverse
    else
      match rem with
      | r :: rest => if r = '\n' then none else lazyDotCapAux (r :: acc) rest
      | [] => none

def lazyDotCap : List Char → Option (List Char)
  | [] => none
  | c :: rest => if c = '\n' then none else lazyDotCapAux [c] rest

/-- Lazy `(.+?)` followed by the literal `lit`. -/
def lazyLitCapAux (lit : List Char) : List Char → List Char → Option (List Char)
  | acc, rem =>
    if lit.isPrefixOf rem then some acc.reverse
    else
      match rem with
      | r :: rest => if r = '\n' then none else lazyLitCapAux lit (r :: acc) rest
      | [] => none

def lazyLitCap (lit : List Char) : List Char → Option (List Char)
  | [] => none
  | c :: rest => if c = '\n' then none else lazyLitCapAux lit [c] rest

/-- Models `(?:a |an )?` then lazy-dot capture, in regex backtracking order. -/
def articleDotCap (l : List Char) : Option (List Char) :=
  (if "a ".data.isPrefixOf l then lazyDotCap (l.drop 2) else none).orElse fun _ =>
  (if "an ".data.isPrefixOf l then lazyDotCap (l.drop 3) else none).orElse fun _ =>
  lazyDotCap l

/-- Models `_extract_name` (user_memory.py:91-107): the five patterns in order, on
the lower-cased text, capitalizing the first capture. -/
def extract_name (text : String) : Option String :=
  let lower := (pyLower text).data
  let m :=
    (scanCap "my name is ".data (wordCap []) lower).orElse fun _ =>
    (scanCap "i am ".data (wordCap []) lower).orElse fun _ =>
    (scanCap "mera naam ".data (wordCap []) lower).orElse fun _ =>
    (scanCap "main ".data (wordCap " hoon".data) lower).orElse fun _ =>
    scanCap "call me ".data (wordCap []) lower
  m.map fun w => pyCapitalize (String.mk w)

/-- The common-word filter of `_extract_occupation` (user_memory.py:124-127). -/
def filterOcc (w : List Char) : Option String :=
  let occ := pyStrip (String.mk w)
  if occ.length > 2 ∧ occ ≠ "student" ∧ occ ≠ "working" then some occ else none

/-- Models `_extract_occupation` (user_memory.py:109-128): five patterns in order;
a match that fails the filter falls through to the next pattern. -/
def extract_occupation (text : String) : Option String :=
  let lower := (pyLower text).data
  ((scanCap "i work as ".data articleDotCap lower).bind filterOcc).orElse fun _ =>
  ((scanCap "i am ".data articleDotCap lower).bind filterOcc).orElse fun _ =>
  ((scanCap "main ".data (lazyLitCap " hoon".data) lower).bind filterOcc).orElse fun _ =>
  ((scanCap "kaam karta hoon ".data lazyDotCap lower).bind filterOcc).orElse fun _ =>
  (scanCap "kaam karti hoon ".data lazyDotCap lower).bind filterOcc

/-- Models `_extract_interests` (user_memory.py:130-148): one capture per matching
pattern, in pattern order, each stripped. -/
def extract_interests (text : String) : List String :=
  let lower := (pyLower text).data
  [scanCap "i like ".data lazyDotCap lower,
   scanCap "i love ".data lazyDotCap lower,
   scanCap "mujhe ".data (lazyLitCap " pasand".data) lower,
   scanCap "interested in ".data lazyDotCap lower].filterMap
    fun r => r.map fun w => pyStrip (String.mk w)

def personalKeywords : List String :=
  ["my name", "i am", "i work", "i like", "i love",
   "mera naam", "main hoon", "mujhe pasand", "kaam karta", "kaam karti"]

/-- Models `_is_personal_info` (user_memory.py:150-156). -/
def is_personal_info (text : String) : Bool :=
  personalKeywords.any fun k => strContains (pyLower text) k

def nameTriggers : List String := ["my name is", "mera naam", "i am", "main hoon"]

def occupationTriggers : List String :=
  ["i work as", "i am a", "main", "kaam karta", "kaam karti"]

def interestTriggers : List String :=
  ["i like", "i love", "mujhe pasand", "interested in"]

/-- Models `extract_and_store_info` (user_memory.py:53-89), as a state transformer;
`now` is `datetime.now().isoformat()` and `ioOk` the save outcome. -/
def extract_and_store_info (userMsg aiResponse now : String) (ioOk : Bool)
    (s : MemState) : MemState :=
  let lowerMsg := pyLower userMsg
  let s1 :=
    if nameTriggers.any (fun p => strContains lowerMsg p) then
      match extract_name userMsg with
      | some n =>
        saveMem ioOk
          { s with mem := { s.mem with profile := { s.mem.profile with name := some n } } }
      | none => s
    else s
  let s2 :=
    if occupationTriggers.any (fun p => strContains lowerMsg p) then
      match extract_occupation userMsg with
      | some o =>
        saveMem ioOk
          { s1 with mem :=
              { s1.mem with profile := { s1.mem.profile with occupation := some o } } }
      | none => s1
    else s1
  let s3 :=
    if interestTriggers.any (fun p => strContains lowerMsg p) then
      let ints := extract_interests userMsg
      if ints.isEmpty then s2
      else
        let newInts := ints.foldl
          (fun acc i => if acc.contains i then acc else acc ++ [i])
          s2.mem.profile.interests
        saveMem ioOk
          { s2 with mem :=
              { s2.mem with profile := { s2.mem.profile with interests := newInts } } }
    else s2
  if is_personal_info userMsg then
    saveMem ioOk
      { s3 with mem :=
          { s3.mem with
            facts := s3.mem.facts ++
              [{ content := userMsg, timestamp := now,
                 context := String.mk (aiResponse.data.take 100) }]
            last_updated := some now } }
  else s3

/-- Python truthiness of an optional string field. -/
def nameTruthy : Option String → Bool
  | some s => !(s = "")
  | none => false

/-- Models `get_context_for_ai` (user_memory.py:158-181). -/
def get_context_for_ai (m : Memory) : String :=
  if !nameTruthy m.profile.name && m.facts.isEmpty then ""
  else
    "**User Information (Remember this):**\n" ++
    (match m.profile.name with
     | some n => if n = "" then "" else "- Name: " ++ n ++ "\n"
     | none => "") ++
    (match m.profile.occupation with
     | some o => if o = "" then "" else "- Occupation: " ++ o ++ "\n"
     | none => "") ++
    (if m.profile.interests.isEmpty then ""
     else "- Interests: " ++ ", ".intercalate m.profile.interests ++ "\n") ++
    (if m.facts.isEmpty then ""
     else "\n**Previous conversations:**\n" ++
       String.join ((lastN 5 m.facts).map fun f => "- " ++ f.content ++ "\n"))

/-- Models `get_profile` (user_memory.py:183-185). -/
def get_profile (s : MemState) : Profile := s.mem.profile

/-! # Theorems -/

/-! ## General lemmas -/

theorem saveMem_mem (ioOk : Bool) (s : MemState) : (saveMem ioOk s).mem = s.mem := by
  cases ioOk <;> simp [saveMem]

theorem isSubList_append_right (p l2 : List Char) (l1 : List Char)
    (h : isSubList p l2 = true) : isSubList p (l1 ++ l2) = true := by
  induction l1 with
  | nil => simpa using h
  | cons x xs ih =>
    simp only [List.cons_append, isSubList, Bool.or_eq_true]
    exact Or.inr ih

/-! ## C3: a timed-out `execute_command` reports a timeout failure -/

/-- C3: for every shell command whose process exceeds the 30-second timeout,
`execute_command` returns `success = false` with a message that identifies
the failure as a timeout (the caught `TimeoutExpired` text "timed out after
30 seconds" is embedded in the message). -/
theorem C3_execute_command_timeout (cmd : String) :
    (ActionExecutor.execute_command cmd .timedOut).success = false ∧
    strContains (ActionExecutor.execute_command cmd .timedOut).message
      "timed out after 30 seconds" = true := by
  refine ⟨rfl, ?_⟩
  show isSubList _ _ = true
  simp only [ActionExecutor.execute_command, timeoutExpiredStr, strContains,
    String.data_append, List.append_assoc]
  apply isSubList_append_right
  apply isSubList_append_right
  apply isSubList_append_right
  decide

/-! ## C10: `execute_command` completing within the timeout -/

/-- C10: when the spawned process completes within the timeout, the result's
success flag is true exactly when the exit code is 0, the message is the
fixed success-styled string regardless of exit code, and the exit code and
captured output (stdout, or stderr when stdout is empty) are returned. -/
theorem C10_execute_command_completed (cmd : String) (rc : Int) (out err : String) :
    ((ActionExecutor.execute_command cmd (.completed rc out err)).success = true ↔ rc = 0) ∧
    (ActionExecutor.execute_command cmd (.completed rc out err)).message = "✅ Command executed" ∧
    (ActionExecutor.execute_command cmd (.completed rc out err)).output =
      some (if out = "" then err else out) ∧
    (ActionExecutor.execute_command cmd (.completed rc out err)).exit_code = some rc := by
  refine ⟨?_, rfl, rfl, rfl⟩
  simp [ActionExecutor.execute_command]

/-! ## C5: absent credential -/

/-- C5: when the model credential is absent, `process_command` returns the
fixed "not configured" message with an empty actions list and performs no
event (no filesystem or process action is attempted). -/
theorem C5_not_configured (text : String) (gen : String → String)
    (env : Invocation → ActionResult) :
    process_command false text gen env =
      { response := .str notConfiguredMsg, code := none, language := none,
        actions := [], events := [] } := rfl

/-! ## C7: `clear()` then `load()` yields the default shape -/

/-- C7: clearing memory and re-loading from disk yields the documented
default shape: empty facts, unset name/occupation/location, empty
interests/skills, empty preference maps, unset last-updated stamp. -/
theorem C7_clear_load_default (s : MemState) :
    (load_memory (clear_memory true s).disk).facts = [] ∧
    (load_memory (clear_memory true s).disk).profile.name = none ∧
    (load_memory (clear_memory true s).disk).profile.occupation = none ∧
    (load_memory (clear_memory true s).disk).profile.location = none ∧
    (load_memory (clear_memory true s).disk).profile.interests = [] ∧
    (load_memory (clear_memory true s).disk).profile.skills = [] ∧
    (load_memory (clear_memory true s).disk).profile.preferences = [] ∧
    (load_memory (clear_memory true s).disk).preferences = [] ∧
    (load_memory (clear_memory true s).disk).last_updated = none := by
  refine ⟨rfl, rfl, rfl, rfl, rfl, rfl, rfl, rfl, rfl⟩

/-! ## C8: "my name is Riya" stores the name "Riya" -/

/-- C8: after `extract_and_store_info` on the command text "my name is Riya"
(any response text, timestamp, save outcome, prior state), the stored
profile's name is "Riya". -/
theorem C8_name_riya (resp now : String) (ioOk : Bool) (s : MemState) :
    (extract_and_store_info "my name is Riya" resp now ioOk s).mem.profile.name =
      some "Riya" := by
  have h1 : nameTriggers.any (fun p => strContains (pyLower "my name is Riya") p) = true := by
    decide
  have h2 : occupationTriggers.any
      (fun p => strContains (pyLower "my name is Riya") p) = false := by decide
  have h3 : interestTriggers.any
      (fun p => strContains (pyLower "my name is Riya") p) = false := by decide
  have h4 : is_personal_info "my name is Riya" = true := by decide
  have h5 : extract_name "my name is Riya" = some "Riya" := by decide
  simp only [extract_and_store_info, h1, h2, h3, h4, h5, if_true, if_false,
    Bool.false_eq_true, reduceIte]
  cases ioOk <;> simp [saveMem]

/-! ## C6: registry operations never propagate exceptions -/

theorem take2_append (a b : List Char) (h : a.take 2 = "❌ ".data) :
    (a ++ b).take 2 = "❌ ".data := by
  have h2 : ("❌ ".data).length = 2 := by decide
  have hlen : min 2 a.length = 2 := by
    have hc := congrArg List.length h
    rwa [List.length_take, h2] at hc
  have hl : 2 ≤ a.length := by
    rcases Nat.le_total 2 a.length with h' | h'
    · exact h'
    · rw [Nat.min_eq_right h'] at hlen; omega
  rw [List.take_append_of_le_length hl, h]

theorem take2_err (m : String) (h : m.data.take 2 = "❌ ".data) :
    ∃ rest, m = "❌ " ++ rest := by
  refine ⟨String.mk (m.data.drop 2), String.ext ?_⟩
  show m.data = "❌ ".data ++ m.data.drop 2
  rw [← h, List.take_append_drop]

/-- C6: for every Action Registry operation, when the environment raises an
exception during the operation's body, no exception escapes: the operation
returns an `ActionResult` with `success = false` whose message is a
descriptive "❌ "-prefixed error text. -/
theorem C6_registry_exception_safety (ws : String) (c : RegistryCall)
    (h : callRaised c = true) :
    (runRegistry ws c).success = false ∧
    ∃ rest, (runRegistry ws c).message = "❌ " ++ rest := by
  cases c with
  | create_file fn ct oc =>
    cases oc with
    | ok v => simp [callRaised] at h
    | exc e =>
      refine ⟨rfl, take2_err _ ?_⟩
      show (("❌ Error creating file: " ++ e).data).take 2 = _
      rw [String.data_append]
      exact take2_append _ _ (by decide)
  | open_idle fn oc =>
    cases oc with
    | ok v => simp [callRaised] at h
    | exc e =>
      refine ⟨rfl, take2_err _ ?_⟩
      show ((("❌ Error opening IDLE: " ++ e) ++ ". Try: VS Code or Notepad instead").data).take 2 = _
      rw [String.data_append, String.data_append]
      exact take2_append _ _ (take2_append _ _ (by decide))
  | open_notepad fn oc =>
    cases oc with
    | ok v => simp [callRaised] at h
    | exc e =>
      refine ⟨rfl, take2_err _ ?_⟩
      show (("❌ Error opening Notepad: " ++ e).data).take 2 = _
      rw [String.data_append]
      exact take2_append _ _ (by decide)
  | open_vscode fn oc =>
    cases oc with
    | ok v => simp [callRaised] at h
    | exc e =>
      refine ⟨rfl, take2_err _ ?_⟩
      show ((("❌ Error opening VS Code: " ++ e) ++ ". Make sure VS Code is installed.").data).take 2 = _
      rw [String.data_append, String.data_append]
      exact take2_append _ _ (take2_append _ _ (by decide))
  | run_python_code code w r =>
    cases w with
    | exc e =>
      refine ⟨rfl, take2_err _ ?_⟩
      show (("❌ Error executing code: " ++ e).data).take 2 = _
      rw [String.data_append]
      exact take2_append _ _ (by decide)
    | ok v =>
      cases r with
      | completed rc out err => simp [callRaised] at h
      | timedOut =>
        refine ⟨rfl, take2_err _ ?_⟩
        show (("❌ Code execution timed out (10s limit)" : String).data).take 2 = _
        decide
      | raised e =>
        refine ⟨rfl, take2_err _ ?_⟩
        show (("❌ Error executing code: " ++ e).data).take 2 = _
        rw [String.data_append]
        exact take2_append _ _ (by decide)
  | execute_command cmd r =>
    cases r with
    | completed rc out err => simp [callRaised] at h
    | timedOut =>
      refine ⟨rfl, take2_err _ ?_⟩
      show (("❌ Error executing command: " ++ timeoutExpiredStr cmd 30).data).take 2 = _
      rw [String.data_append]
      exact take2_append _ _ (by decide)
    | raised e =>
      refine ⟨rfl, take2_err _ ?_⟩
      show (("❌ Error executing command: " ++ e).data).take 2 = _
      rw [String.data_append]
      exact take2_append _ _ (by decide)
  | list_files oc =>
    cases oc with
    | ok v => simp [callRaised] at h
    | exc e =>
      refine ⟨rfl, take2_err _ ?_⟩
      show (("❌ Error listing files: " ++ e).data).take 2 = _
      rw [String.data_append]
      exact take2_append _ _ (by decide)
  | read_file fn oc =>
    cases oc with
    | ok v => simp [callRaised] at h
    | exc e =>
      refine ⟨rfl, take2_err _ ?_⟩
      show (("❌ Error reading file: " ++ e).data).take 2 = _
      rw [String.data_append]
      exact take2_append _ _ (by decide)
  | open_browser u oc =>
    cases oc with
    | ok v => simp [callRaised] at h
    | exc e =>
      refine ⟨rfl, take2_err _ ?_⟩
      show (("❌ Error opening browser: " ++ e).data).take 2 = _
      rw [String.data_append]
      exact take2_append _ _ (by decide)
  | open_youtube q env =>
    cases env with
    | automation res =>
      cases res with
      | ok r => simp [callRaised] at h
      | exc e =>
        refine ⟨rfl, take2_err _ ?_⟩
        show (("❌ Error opening YouTube: " ++ e).data).take 2 = _
        rw [String.data_append]
        exact take2_append _ _ (by decide)
    | fallback oc =>
      cases oc with
      | ok v => simp [callRaised] at h
      | exc e =>
        refine ⟨rfl, take2_err _ ?_⟩
        show (("❌ Error opening YouTube: " ++ e).data).take 2 = _
        rw [String.data_append]
        exact take2_append _ _ (by decide)
  | google_search q oc =>
    cases oc with
    | ok v => simp [callRaised] at h
    | exc e =>
      refine ⟨rfl, take2_err _ ?_⟩
      show (("❌ Error opening Google: " ++ e).data).take 2 = _
      rw [String.data_append]
      exact take2_append _ _ (by decide)
  | open_application a oc =>
    cases oc with
    | ok v => simp [callRaised] at h
    | exc e =>
      refine ⟨rfl, take2_err _ ?_⟩
      show (((("❌ Error opening " ++ a) ++ ": ") ++ e).data).take 2 = _
      rw [String.data_append, String.data_append, String.data_append]
      exact take2_append _ _ (take2_append _ _ (take2_append _ _ (by decide)))
  | delete_file fn oc =>
    cases oc with
    | ok v => simp [callRaised] at h
    | exc e =>
      refine ⟨rfl, take2_err _ ?_⟩
      show (("❌ Error deleting file: " ++ e).data).take 2 = _
      rw [String.data_append]
      exact take2_append _ _ (by decide)

/-- Witness for C6 at a concrete failing `create_file` call. -/
theorem C6_registry_exception_safety_witness :
    callRaised (.create_file "a.txt" "x" (.exc "disk full")) = true ∧
    ((runRegistry "ws" (.create_file "a.txt" "x" (.exc "disk full"))).success = false ∧
      ∃ rest,
        (runRegistry "ws" (.create_file "a.txt" "x" (.exc "disk full"))).message =
          "❌ " ++ rest) :=
  ⟨rfl, C6_registry_exception_safety "ws" (.create_file "a.txt" "x" (.exc "disk full")) rfl⟩

/-! ## C9: context rendering -/

theorem isPrefixOf_append_self (p t : List Char) : p.isPrefixOf (p ++ t) = true := by
  induction p with
  | nil => simp [List.isPrefixOf]
  | cons c cs ih => simp [List.isPrefixOf, ih]

theorem isSubList_prefixOf (p l : List Char) (h : p.isPrefixOf l = true) :
    isSubList p l = true := by
  cases l with
  | nil =>
    cases p with
    | nil => rfl
    | cons c cs => simp [List.isPrefixOf] at h
  | cons c tl => simp [isSubList, h]

theorem contains5_2 (a p b c d : String) :
    strContains ((((a ++ p) ++ b) ++ c) ++ d) p = true := by
  show isSubList _ _ = true
  simp only [String.data_append, List.append_assoc]
  apply isSubList_append_right
  exact isSubList_prefixOf _ _ (isPrefixOf_append_self _ _)

theorem contains5_3 (a b p c d : String) :
    strContains ((((a ++ b) ++ p) ++ c) ++ d) p = true := by
  show isSubList _ _ = true
  simp only [String.data_append, List.append_assoc]
  apply isSubList_append_right
  apply isSubList_append_right
  exact isSubList_prefixOf _ _ (isPrefixOf_append_self _ _)

theorem contains5_4 (a b c p d : String) :
    strContains ((((a ++ b) ++ c) ++ p) ++ d) p = true := by
  show isSubList _ _ = true
  simp only [String.data_append, List.append_assoc]
  apply isSubList_append_right
  apply isSubList_append_right
  apply isSubList_append_right
  exact isSubList_prefixOf _ _ (isPrefixOf_append_self _ _)

theorem lastN_idem {α : Type} (l : List α) : lastN 5 (lastN 5 l) = lastN 5 l := by
  unfold lastN
  rw [List.length_drop, List.drop_drop]
  congr 1
  omega

theorem lastN_empty_iff {α : Type} (l : List α) :
    (lastN 5 l).isEmpty = l.isEmpty := by
  cases l with
  | nil => rfl
  | cons x xs =>
    have hne : lastN 5 (x :: xs) ≠ [] := by
      unfold lastN
      intro hc
      rw [List.drop_eq_nil_iff] at hc
      simp [List.length_cons] at hc
      omega
    simp [List.isEmpty_iff, hne]

/-- C9 (amended): whenever the profile has a truthy name or at least one
stored fact, `get_context_for_ai` renders the set profile fields (name,
occupation, interests) into the context block and renders at most the five
most recent facts (the context only depends on the last five facts).  The
original claim's unconditional rendering of occupation/interests fails: see
the counterexample. -/
theorem C9_context_rendering (m : Memory)
    (h : nameTruthy m.profile.name = true ∨ m.facts ≠ []) :
    (∀ n, m.profile.name = some n → n ≠ "" →
      strContains (get_context_for_ai m) ("- Name: " ++ n ++ "\n") = true) ∧
    (∀ o, m.profile.occupation = some o → o ≠ "" →
      strContains (get_context_for_ai m) ("- Occupation: " ++ o ++ "\n") = true) ∧
    (m.profile.interests ≠ [] →
      strContains (get_context_for_ai m)
        ("- Interests: " ++ ", ".intercalate m.profile.interests ++ "\n") = true) ∧
    get_context_for_ai m = get_context_for_ai { m with facts := lastN 5 m.facts } := by
  have hguard : (!nameTruthy m.profile.name && m.facts.isEmpty) = false := by
    rcases h with h | h
    · simp [h]
    · simp [List.isEmpty_iff, h]
  refine ⟨?_, ?_, ?_, ?_⟩
  · intro n hn hne
    unfold get_context_for_ai
    rw [hguard]
    simp only [Bool.false_eq_true, if_false, hn, if_neg hne]
    exact contains5_2 _ _ _ _ _
  · intro o ho hne
    unfold get_context_for_ai
    rw [hguard]
    simp only [Bool.false_eq_true, if_false, ho, if_neg hne]
    exact contains5_3 _ _ _ _ _
  · intro hi
    have hie : m.profile.interests.isEmpty = false := by
      simp [List.isEmpty_iff, hi]
    unfold get_context_for_ai
    rw [hguard]
    simp only [Bool.false_eq_true, if_false, hie]
    exact contains5_4 _ _ _ _ _
  · simp only [get_context_for_ai, lastN_empty_iff, lastN_idem]

/-- C9 counterexample: a profile with occupation set but no name and no
facts renders the empty context, which does not contain the occupation. -/
theorem C9_context_rendering_counterexample :
    get_context_for_ai
      ⟨⟨none, some "engineer", [], [], [], none⟩, [], [], [], none⟩ = "" ∧
    strContains
      (get_context_for_ai ⟨⟨none, some "engineer", [], [], [], none⟩, [], [], [], none⟩)
      ("- Occupation: " ++ "engineer" ++ "\n") = false := by
  exact ⟨rfl, by decide⟩

/-- Witness for C9 at a concrete populated profile. -/
theorem C9_context_rendering_witness :
    strContains
      (get_context_for_ai
        ⟨⟨some "Riya", some "engineer", ["chess"], [], [], none⟩,
         [⟨"i like chess", "t", "c"⟩], [], [], none⟩)
      ("- Occupation: " ++ "engineer" ++ "\n") = true :=
  (C9_context_rendering
    ⟨⟨some "Riya", some "engineer", ["chess"], [], [], none⟩,
     [⟨"i like chess", "t", "c"⟩], [], [], none⟩
    (Or.inl (by decide))).2.1 "engineer" rfl (by decide)

/-! ## C2: malformed model output -/

/-- C2 (amended): when no JSON object is found in the model reply,
`process_command` does not raise and produces the fallback plan with exactly
one step tagged "just_respond" whose response is the raw reply, which is
returned with no actions.  When a JSON substring is found but fails to
parse, `process_command` still does not raise, but it returns the generic
error response built from the parse error, with an empty actions list — not
the just_respond fallback (see the counterexample). -/
theorem C2_malformed_model_output (text : String) (gen : String → String)
    (env : Invocation → ActionResult) :
    (extractJsonSub text = none →
      buildPlan text = .ok (fallbackPlan text) ∧
      planSteps (fallbackPlan text) = .ok [.obj [("type", .str "just_respond")]] ∧
      (process_command true text gen env).response = .str text ∧
      (process_command true text gen env).actions = [] ∧
      (process_command true text gen env).events = []) ∧
    (∀ sub e, extractJsonSub text = some sub → jsonLoads sub = .error e →
      process_command true text gen env = errOut [] e) := by
  constructor
  · intro hnone
    have hplan : buildPlan text = .ok (fallbackPlan text) := by
      unfold buildPlan
      rw [hnone]
    have hmain : process_command true text gen env =
        { response := .str text,
          code := (extract_code_blocks text).head?.map CodeBlock.code,
          language := (extract_code_blocks text).head?.map CodeBlock.language,
          actions := [], events := [] } := by
      unfold process_command buildPlan
      rw [hnone]
      rfl
    exact ⟨hplan, rfl, by rw [hmain], by rw [hmain], by rw [hmain]⟩
  · intro sub e hsub herr
    have h1 : buildPlan text = jsonLoads sub := by
      unfold buildPlan
      rw [hsub]
    have hb : buildPlan text = .error e := by rw [h1, herr]
    unfold process_command
    rw [hb]
    rfl

/-- C2 counterexample: on the model reply consisting of a brace-enclosed
non-JSON body, the extracted substring fails to parse and `process_command`
returns the generic error response with empty actions — the response is not
the raw reply and no just_respond plan is built. -/
theorem C2_malformed_model_output_counterexample :
    buildPlan "\x7bbad\x7d" =
      .error "Expecting property name enclosed in double quotes: line 1 column 2 (char 1)" ∧
    (process_command true "\x7bbad\x7d" (fun _ => "")
        (fun _ => { success := true, message := "m" })).response =
      .str "❌ Error: Expecting property name enclosed in double quotes: line 1 column 2 (char 1)" ∧
    "❌ Error: Expecting property name enclosed in double quotes: line 1 column 2 (char 1)" ≠
      "\x7bbad\x7d" ∧
    (process_command true "\x7bbad\x7d" (fun _ => "")
        (fun _ => { success := true, message := "m" })).actions = [] := by
  exact ⟨rfl, rfl, by decide, rfl⟩

/-- Witness for C2 at concrete inputs exercising both branches. -/
theorem C2_malformed_model_output_witness :
    (process_command true "no json here" (fun _ => "")
        (fun _ => { success := true, message := "m" })).response = .str "no json here" ∧
    process_command true "\x7bbad\x7d" (fun _ => "")
        (fun _ => { success := true, message := "m" }) =
      errOut [] "Expecting property name enclosed in double quotes: line 1 column 2 (char 1)" :=
  ⟨((C2_malformed_model_output "no json here" (fun _ => "")
      (fun _ => { success := true, message := "m" })).1 rfl).2.2.1,
   (C2_malformed_model_output "\x7bbad\x7d" (fun _ => "")
      (fun _ => { success := true, message := "m" })).2 "\x7bbad\x7d"
     "Expecting property name enclosed in double quotes: line 1 column 2 (char 1)" rfl rfl⟩

/-! ## C4: secondary content generation for `create_file` -/

theorem isSubList_iff (p : List Char) : ∀ l, isSubList p l = true ↔ p <:+: l := by
  intro l
  induction l with
  | nil => simp [isSubList, List.isEmpty_iff, List.infix_nil]
  | cons c tl ih =>
    simp only [isSubList, Bool.or_eq_true, List.infix_cons_iff]
    constructor
    · rintro (h | h)
      · exact Or.inl ( List.isPrefixOf_iff_prefix.mp h)
      · exact Or.inr (ih.mp h)
    · rintro (h | h)
      · exact Or.inl ( List.isPrefixOf_iff_prefix.mpr h)
      · exact Or.inr (ih.mpr h)

theorem isSubList_false_of_infix (p l l' : List Char) (hinf : l' <:+: l)
    (hf : isSubList p l = false) : isSubList p l' = false := by
  by_contra hc
  rw [Bool.not_eq_false, isSubList_iff] at hc
  rw [← Bool.not_eq_true, isSubList_iff] at hf
  exact hf (hc.trans hinf)

theorem stripChars_infix (l : List Char) : stripChars l <:+: l := by
  unfold stripChars
  have h1 : l.dropWhile pyWs <:+ l := List.dropWhile_suffix pyWs
  have h2 : ((l.dropWhile pyWs).reverse.dropWhile pyWs).reverse <+: l.dropWhile pyWs := by
    rw [← List.reverse_suffix]
    rw [List.reverse_reverse]
    exact List.dropWhile_suffix pyWs
  exact h2.isInfix.trans h1.isInfix

theorem tufLeads : ∀ (l b r : List Char), takeUntilFence l = some (b, r) → b <+: l := by
  intro l
  induction l with
  | nil => intro b r h; exact Option.noConfusion h
  | cons c rest ih =>
    intro b r h
    unfold takeUntilFence at h
    split at h
    · injection h with h'
      injection h' with hb hr
      rw [← hb]
      exact List.nil_prefix
    · rcases hmap : takeUntilFence rest with _ | ⟨b', r'⟩ <;> rw [hmap] at h
      · exact Option.noConfusion h
      · injection h with h'
        injection h' with hb hr
        rw [← hb]
        exact List.cons_prefix_cons.mpr ⟨rfl, ih b' r' hmap⟩

theorem tuf_noFence : ∀ (l b r : List Char), takeUntilFence l = some (b, r) →
    isSubList [btick, btick, btick] b = false := by
  intro l
  induction l with
  | nil => intro b r h; exact Option.noConfusion h
  | cons c rest ih =>
    intro b r h
    unfold takeUntilFence at h
    split at h
    next hcond =>
      injection h with h'
      injection h' with hb hr
      rw [← hb]
      rfl
    next hcond =>
      rcases hmap : takeUntilFence rest with _ | ⟨b', r'⟩ <;> rw [hmap] at h
      · exact Option.noConfusion h
      · injection h with h'
        injection h' with hb hr
        rw [← hb]
        show (isSubList [btick, btick, btick] (c :: b')) = false
        have hih := ih b' r' hmap
        unfold isSubList
        rw [hih, Bool.or_false]
        by_contra hcon
        rw [Bool.not_eq_false] at hcon
        simp only [List.isPrefixOf, Bool.and_eq_true, beq_iff_eq] at hcon
        rcases hcon with ⟨hcb, hcon2⟩
        have h2 : [btick, btick] <+: b' := List.isPrefixOf_iff_prefix.mp hcon2
        have h3 : [btick, btick] <+: rest := h2.trans (tufLeads rest b' r' hmap)
        rcases h3 with ⟨t, ht⟩
        exact hcond ⟨hcb.symm, by rw [← ht]; rfl⟩

theorem findall_body_noFence : ∀ (fuel : Nat) (l : List Char) (lang body : String),
    (lang, body) ∈ findallFenced fuel l →
    isSubList [btick, btick, btick] body.data = false := by
  intro fuel
  induction fuel with
  | zero => intro l lang body h; cases h
  | succ n ih =>
    intro l lang body h
    cases l with
    | nil => cases h
    | cons c rest =>
      unfold findallFenced at h
      split at h
      · split at h
        · split at h
          · split at h
            next ba htf =>
              rcases List.mem_cons.mp h with heq | hmem
              · injection heq with hlang hbody
                rw [hbody]
                show isSubList [btick, btick, btick] ba.1 = false
                exact tuf_noFence _ ba.1 ba.2 (by rw [htf])
              · exact ih _ _ _ hmem
            next htf => exact ih _ _ _ h
          · exact ih _ _ _ h
        · exact ih _ _ _ h
      · exact ih _ _ _ h

theorem extract_code_blocks_noFence (text : String) (b : CodeBlock)
    (hb : b ∈ extract_code_blocks text) : strContains b.code "```" = false := by
  unfold extract_code_blocks at hb
  rw [List.mem_map] at hb
  rcases hb with ⟨⟨lang, body⟩, hmem, hbeq⟩
  have h1 : isSubList [btick, btick, btick] body.data = false :=
    findall_body_noFence _ _ _ _ hmem
  have h2 : stripChars body.data <:+: body.data := stripChars_infix body.data
  have h3 : isSubList [btick, btick, btick] (stripChars body.data) = false :=
    isSubList_false_of_infix _ _ _ h2 h1
  have hcode : b.code = pyStrip body := by rw [← hbeq]
  show isSubList "```".data b.code.data = false
  rw [hcode]
  show isSubList "```".data (stripChars body.data) = false
  have hfd : "```".data = [btick, btick, btick] := by decide
  rw [hfd]
  exact h3

/-- C4: for a `create_file` step whose content parameter is falsy, the
executor first issues the secondary content-generation call built from the
plan's intent, then invokes `create_file` with the file body equal to the
inner code of the first fenced block of the reply (stripped) when one is
present — in which case the body never contains the "```" delimiters — and
equal to the raw reply text otherwise. -/
theorem C4_create_file_generation (plan : Json) (plf sf pf : List (String × Json))
    (gen : String → String) (intent : Json)
    (hplan : plan = .obj plf) (hintent : lookupField plf "intent" = some intent)
    (hty : oget sf "type" .null = .str "create_file")
    (hpa : oget sf "params" (.obj []) = .obj pf)
    (hct : (oget pf "content" .null).truthy = false) :
    ∃ content,
      runStep plan gen (.obj sf) =
        .ok [.genCall (codePrompt (pyStr intent)),
             .invoke (.create_file (oget pf "filename" (.str "script.py")) (.str content))] ∧
      (∀ b bs, extract_code_blocks (gen (codePrompt (pyStr intent))) = b :: bs →
        content = b.code ∧ strContains content "```" = false) ∧
      (extract_code_blocks (gen (codePrompt (pyStr intent))) = [] →
        content = gen (codePrompt (pyStr intent))) := by
  subst hplan
  refine ⟨(match extract_code_blocks (gen (codePrompt (pyStr intent))) with
           | b :: _ => b.code
           | [] => gen (codePrompt (pyStr intent))), ?_, ?_, ?_⟩
  · unfold runStep
    simp only [hty, hpa, hct, hintent, Bool.false_eq_true, if_false, reduceIte]
  · intro b bs hbs
    constructor
    · rw [hbs]
    · have hmem : b ∈ extract_code_blocks (gen (codePrompt (pyStr intent))) := by
        rw [hbs]; exact List.mem_cons_self b bs
      have := extract_code_blocks_noFence _ b hmem
      rw [hbs]
      exact this
  · intro hnil
    rw [hnil]

/-- Witness for C4 at a concrete plan, step, and generation reply. -/
theorem C4_create_file_generation_witness :
    runStep (.obj [("intent", .str "sort")]) (fun _ => "```python\nxs.sort()\n```")
        (.obj [("type", .str "create_file"), ("params", .obj [("filename", .str "s.py")])]) =
      .ok [.genCall "Write clean, well-commented Python code for: sort",
           .invoke (.create_file (.str "s.py") (.str "xs.sort()"))] ∧
    strContains "xs.sort()" "```" = false := by
  obtain ⟨content, h1, h2, h3⟩ :=
    C4_create_file_generation (.obj [("intent", .str "sort")]) [("intent", .str "sort")]
      [("type", .str "create_file"), ("params", .obj [("filename", .str "s.py")])]
      [("filename", .str "s.py")]
      (fun _ => "```python\nxs.sort()\n```") (.str "sort") rfl rfl rfl rfl rfl
  obtain ⟨hc, hf⟩ := h2 ⟨"python", "xs.sort()"⟩ [] rfl
  subst hc
  exact ⟨h1, hf⟩

/-! ## C1: the executor loop dispatches exactly the recognised actions -/

theorem buildResponse_str (r : String) (results : List ActionResult) :
    ∃ out, buildResponse (.str r) results = .ok (.str out) := by
  cases results with
  | nil => exact ⟨r, rfl⟩
  | cons a l => exact ⟨_, rfl⟩

theorem runStep_dispatch (plf : List (String × Json)) (gen : String → String)
    (intent : Json) (hintent : lookupField plf "intent" = some intent)
    (step : Json) (hstep : stepOK step = true) :
    runStep (.obj plf) gen step = .ok (stepEvents (.obj plf) gen step) ∧
    executorCalls (stepEvents (.obj plf) gen step) =
      (stepInvocation (.obj plf) gen step).toList := by
  cases step with
  | null => simp [stepOK] at hstep
  | bool b => simp [stepOK] at hstep
  | num r => simp [stepOK] at hstep
  | str s => simp [stepOK] at hstep
  | arr xs => simp [stepOK] at hstep
  | obj sf =>
    rcases hty : oget sf "type" .null with _ | b | nr | t | xs | fl <;>
        simp [stepOK, hty] at hstep
    rcases hpa : oget sf "params" (.obj []) with _ | b2 | nr2 | s2 | xs2 | pf <;>
        simp [hpa, declaredTags] at hstep
    rcases hstep with rfl | rfl | rfl | rfl | rfl | rfl | rfl | rfl | rfl | rfl | rfl | rfl | rfl <;>
      · refine ⟨?_, ?_⟩ <;> cases hct : (oget pf "content" Json.null).truthy <;>
          simp [runStep, stepEvents, stepInvocation, executorCalls, hty, hpa, hct, hintent]

theorem runSteps_dispatch (plf : List (String × Json)) (gen : String → String)
    (intent : Json) (hintent : lookupField plf "intent" = some intent) :
    ∀ steps : List Json, (∀ s ∈ steps, stepOK s = true) →
      runSteps (.obj plf) gen steps =
        ((steps.map (stepEvents (.obj plf) gen)).flatten, none) ∧
      executorCalls ((steps.map (stepEvents (.obj plf) gen)).flatten) =
        steps.filterMap (stepInvocation (.obj plf) gen) := by
  intro steps hall
  induction steps with
  | nil => exact ⟨rfl, rfl⟩
  | cons s rest ih =>
    have hs := hall s (List.mem_cons_self s rest)
    have hrest := ih fun x hx => hall x (List.mem_cons_of_mem s hx)
    obtain ⟨h1, h2⟩ := runStep_dispatch plf gen intent hintent s hs
    constructor
    · show (match runStep (.obj plf) gen s with
        | .error e => ([], some e)
        | .ok evs =>
          ((evs ++ (runSteps (.obj plf) gen rest).1, (runSteps (.obj plf) gen rest).2) :
            List Event × Option String)) = _
      rw [h1, hrest.1]
      simp
    · rw [List.map_cons, List.flatten_cons]
      unfold executorCalls at *
      rw [List.filterMap_append, h2, hrest.2, List.filterMap_cons]
      cases hsi : stepInvocation (.obj plf) gen s <;> simp

/-- C1 (amended): for every model reply whose extracted JSON parses into a
well-formed plan (a dict with an intent, a string or absent response, and a
list of dict steps whose tags all lie in the declared tag set), the executor
performs exactly the per-step events, in plan order: each step tagged with
one of the nine dispatched tags (create_file, open_idle, open_vscode,
run_code, execute_command, open_youtube, open_browser, google_search,
open_application) triggers exactly its one registry invocation with one
ActionResult appended per invocation, while steps tagged just_respond,
list_files, read_file, or delete_file trigger no invocation and no result
(the loop has no branch for them). -/
theorem C1_executor_dispatch (text : String) (gen : String → String)
    (env : Invocation → ActionResult) (plan : Json)
    (hbp : buildPlan text = .ok plan) (hok : planOK plan = true) :
    ∃ steps,
      planSteps plan = .ok steps ∧
      (process_command true text gen env).events =
        (steps.map (stepEvents plan gen)).flatten ∧
      executorCalls ((steps.map (stepEvents plan gen)).flatten) =
        steps.filterMap (stepInvocation plan gen) ∧
      (process_command true text gen env).actions =
        (steps.filterMap (stepInvocation plan gen)).map env := by
  cases plan with
  | null => simp [planOK] at hok
  | bool b => simp [planOK] at hok
  | num r => simp [planOK] at hok
  | str s => simp [planOK] at hok
  | arr xs => simp [planOK] at hok
  | obj pf =>
    rw [planOK, Bool.and_eq_true, Bool.and_eq_true] at hok
    obtain ⟨⟨hint, hresp⟩, hacts⟩ := hok
    rcases Option.isSome_iff_exists.mp hint with ⟨intent, hintent⟩
    rcases hr : oget pf "response" (.str "Done!") with _ | b3 | nr3 | r | xs3 | f3 <;>
        rw [hr] at hresp <;> simp at hresp
    rcases ha : oget pf "actions" (.arr []) with _ | b4 | nr4 | s4 | steps | f4 <;>
        rw [ha] at hacts <;> simp at hacts
    have hall : ∀ s ∈ steps, stepOK s = true := fun s hs => hacts s hs
    have hps : planSteps (.obj pf) = .ok steps := by
      simp only [planSteps, ha]
    obtain ⟨hrs1, hrs2⟩ := runSteps_dispatch pf gen intent hintent steps hall
    obtain ⟨out, hbr⟩ := buildResponse_str r
      ((executorCalls ((steps.map (stepEvents (.obj pf) gen)).flatten)).map env)
    refine ⟨steps, hps, ?_, hrs2, ?_⟩
    · simp only [process_command, Bool.not_true, Bool.false_eq_true, if_false,
        hbp, hps, hrs1, hr, hbr]
    · simp only [process_command, Bool.not_true, Bool.false_eq_true, if_false,
        hbp, hps, hrs1, hr, hbr]
      rw [hrs2]

/-- C1 counterexample: a single well-formed JSON plan whose one action
carries the declared tag "list_files" triggers no registry invocation and no
ActionResult at all — the executor loop has no branch for list_files (nor
read_file or delete_file), so "invokes exactly the actions named, once each,
with one ActionResult per invoked action" fails for it. -/
theorem C1_executor_dispatch_counterexample :
    buildPlan "\x7b\"intent\": \"i\", \"actions\": [\x7b\"type\": \"list_files\"\x7d], \"response\": \"r\"\x7d" =
      .ok (.obj [("intent", .str "i"),
                 ("actions", .arr [.obj [("type", .str "list_files")]]),
                 ("response", .str "r")]) ∧
    (process_command true
        "\x7b\"intent\": \"i\", \"actions\": [\x7b\"type\": \"list_files\"\x7d], \"response\": \"r\"\x7d"
        (fun _ => "") (fun _ => { success := true, message := "m" })).events = [] ∧
    (process_command true
        "\x7b\"intent\": \"i\", \"actions\": [\x7b\"type\": \"list_files\"\x7d], \"response\": \"r\"\x7d"
        (fun _ => "") (fun _ => { success := true, message := "m" })).actions = [] :=
  ⟨rfl, rfl, rfl⟩

/-- Witness for C1 at a concrete reply carrying one open_youtube step. -/
theorem C1_executor_dispatch_witness :
    planOK (.obj [("intent", .str "i"),
      ("actions", .arr [.obj [("type", .str "open_youtube"),
                              ("params", .obj [("search_query", .str "cats")])]]),
      ("response", .str "r")]) = true ∧
    (process_command true
        "\x7b\"intent\": \"i\", \"actions\": [\x7b\"type\": \"open_youtube\", \"params\": \x7b\"search_query\": \"cats\"\x7d\x7d], \"response\": \"r\"\x7d"
        (fun _ => "") (fun _ => { success := true, message := "m" })).events =
      [.invoke (.open_youtube (.str "cats"))] ∧
    (process_command true
        "\x7b\"intent\": \"i\", \"actions\": [\x7b\"type\": \"open_youtube\", \"params\": \x7b\"search_query\": \"cats\"\x7d\x7d], \"response\": \"r\"\x7d"
        (fun _ => "") (fun _ => { success := true, message := "m" })).actions =
      [{ success := true, message := "m" }] := by
  obtain ⟨steps, h1, h2, h3, h4⟩ :=
    C1_executor_dispatch
      "\x7b\"intent\": \"i\", \"actions\": [\x7b\"type\": \"open_youtube\", \"params\": \x7b\"search_query\": \"cats\"\x7d\x7d], \"response\": \"r\"\x7d"
      (fun _ => "") (fun _ => { success := true, message := "m" })
      (.obj [("intent", .str "i"),
        ("actions", .arr [.obj [("type", .str "open_youtube"),
                                ("params", .obj [("search_query", .str "cats")])]]),
        ("response", .str "r")]) rfl rfl
  have hsteps : steps =
      [Json.obj [("type", Json.str "open_youtube"),
                 ("params", Json.obj [("search_query", Json.str "cats")])]] := by
    have h0 : planSteps (.obj [("intent", Json.str "i"),
        ("actions", Json.arr [Json.obj [("type", Json.str "open_youtube"),
                                        ("params", Json.obj [("search_query", Json.str "cats")])]]),
        ("response", Json.str "r")]) =
        Except.ok [Json.obj [("type", Json.str "open_youtube"),
                             ("params", Json.obj [("search_query", Json.str "cats")])]] := rfl
    rw [h1] at h0
    exact Except.ok.inj h0
  subst hsteps
  exact ⟨rfl, h2.trans (by rfl), h4.trans (by rfl)⟩
